import Mathlib

set_option autoImplicit false
set_option linter.unusedVariables false

/-!
Shallow embedding of the distributed-process layer of the lunatic runtime:
the typed-parameter codec and the `spawn` host call
(crates/lunatic-distributed-api/src/lib.rs), the node server handlers
(crates/lunatic-distributed/src/distributed/server.rs), and the process
supervisor loop (src/process.rs).
-/

namespace Lunatic

/-! ### Value codec (lunatic-distributed-api/src/lib.rs, `spawn` lines 129-141)

Parameter buffers are byte sequences; a byte is a `Nat` below 256.
`chunks_exact(17)` silently drops a trailing partial chunk, exactly as the
Rust iterator does. -/

/-- Rust `u128::from_le_bytes`: little-endian value of a byte list. -/
def u128FromLe (bs : List Nat) : Nat :=
  bs.foldr (fun b acc => b + 256 * acc) 0

/-- Cast `value as i32`: truncate to the low 32 bits and reinterpret as signed. -/
def toI32 (v : Nat) : Int :=
  let r : Nat := v % 2 ^ 32
  if r < 2 ^ 31 then (r : Int) else (r : Int) - 2 ^ 32

/-- Cast `value as i64`: truncate to the low 64 bits and reinterpret as signed. -/
def toI64 (v : Nat) : Int :=
  let r : Nat := v % 2 ^ 64
  if r < 2 ^ 63 then (r : Int) else (r : Int) - 2 ^ 64

/-- Type `lunatic_distributed::distributed::message::Val`. -/
inductive Val where
  | I32 (v : Int)
  | I64 (v : Int)
  | V128 (v : Nat)
  deriving DecidableEq, Repr

/-- Decode one complete 17-byte record: the closure body of the
`params.chunks_exact(17).map(...)` pipeline in `spawn`.  The Rust `match`
on the tag byte is written as an if-chain over the same literals. -/
def decodeChunk (c : List Nat) : Except String Val :=
  let value := u128FromLe (c.drop 1)
  let tag := c.headD 0
  if tag = 0x7F then .ok (.I32 (toI32 value))
  else if tag = 0x7E then .ok (.I64 (toI64 value))
  else if tag = 0x7B then .ok (.V128 value)
  else .error "Unsupported type ID"

/-- Fuel-indexed worker for `chunksExact17`; the fuel only bounds the
recursion depth, one unit per emitted chunk. -/
def chunksGo : Nat → List Nat → List (List Nat)
  | 0, _ => []
  | n + 1, l => if 17 ≤ l.length then l.take 17 :: chunksGo n (l.drop 17) else []

/-- Iterator `chunks_exact(17)`: the complete 17-byte chunks of a byte list, any
trailing partial chunk dropped. -/
def chunksExact17 (l : List Nat) : List (List Nat) :=
  chunksGo l.length l

/-- Collect step of the decoded chunks (`collect::<Result<Vec<_>>>()`): first error wins. -/
def collectDecoded : List (List Nat) → Except String (List Val)
  | [] => .ok []
  | c :: rest =>
    match decodeChunk c with
    | .error e => .error e
    | .ok v =>
      match collectDecoded rest with
      | .error e => .error e
      | .ok vs => .ok (v :: vs)

/-- The whole parameter-decoding pipeline of `spawn`:
`params.chunks_exact(17).map(...).collect::<Result<Vec<_>>>()`. -/
def decode_params (bytes : List Nat) : Except String (List Val) :=
  collectDecoded (chunksExact17 bytes)

/-- A record tag byte the codec supports. -/
def supportedTag (t : Nat) : Bool :=
  t == 0x7F || t == 0x7E || t == 0x7B

/-! ### Process supervisor (src/process.rs, `ProcessHandle::new` lines 44-69)

The supervised computation is a future; we model it as a chain of yield
points ending in an output.  The capacity-1 kill channel is modelled by its
queued contents plus a closed flag (no sender remains).  One `loop`
iteration of the `tokio::select! { biased; ... }` is one `step`: the signal
branch is polled first whenever it is enabled, a ready branch preempts the
other, and when only the computation branch can make progress it is polled.
-/

inductive Signal where
  | kill
  deriving DecidableEq, Repr

/-- Enum `Finished<T>`: the reason a process finished. -/
inductive Finished (α : Type) where
  | wasm (out : α)
  | signal (s : Signal)
  deriving DecidableEq, Repr

/-- A computation with finitely many yield points; `done` is the resolved
output of the future (`Result<Box<[Val]>>` in the source, left abstract). -/
inductive Comp (α : Type) where
  | done (out : α)
  | yield (k : Comp α)
  deriving DecidableEq, Repr

/-- The output the computation resolves to if polled to completion. -/
def Comp.result {α : Type} : Comp α → α
  | .done a => a
  | .yield k => k.result

/-- Number of yield points before the computation resolves. -/
def Comp.depth {α : Type} : Comp α → Nat
  | .done _ => 0
  | .yield k => k.depth + 1

/-- State of the supervisor loop in `ProcessHandle::new`: the kill-channel
contents, whether every `signal_sender` has been dropped, the
`disable_signals` flag, and the pinned future. -/
structure SupState (α : Type) where
  queued : Option Signal
  closed : Bool
  disableSignals : Bool
  fut : Comp α
  deriving DecidableEq, Repr

/-- Result of one loop iteration: continue looping or break with a reason. -/
inductive StepRes (α : Type) where
  | cont (s : SupState α)
  | fin (f : Finished α)
  deriving DecidableEq, Repr

/-- Whether the signal branch (`signal_mailbox.recv(), if !disable_signals`)
is both enabled and ready: a signal is queued, or the channel is closed so
`recv` resolves to `None`. -/
def signalReady {α : Type} (s : SupState α) : Bool :=
  !s.disableSignals && (s.queued.isSome || s.closed)

/-- One iteration of the biased select in the supervisor loop. -/
def step {α : Type} (s : SupState α) : StepRes α :=
  if signalReady s then
    match s.queued with
    | some Signal.kill => .fin (.signal .kill)
    | none => .cont { s with disableSignals := true }
  else
    match s.fut with
    | .done a => .fin (.wasm a)
    | .yield k => .cont { s with fut := k }

/-- Termination measure: the `disable_signals` flag flips at most once and
every computation poll consumes a yield point. -/
def SupState.wsize {α : Type} (s : SupState α) : Nat :=
  (if s.disableSignals then 0 else 1) + s.fut.depth

theorem step_cont_wsize {α : Type} (s t : SupState α) (h : step s = .cont t) :
    t.wsize < s.wsize := by
  unfold step at h
  by_cases hr : signalReady s
  · rw [if_pos hr] at h
    cases hq : s.queued with
    | some sg =>
      cases sg
      rw [hq] at h
      exact absurd h (by simp)
    | none =>
      rw [hq] at h
      cases h
      have hd : s.disableSignals = false := by
        unfold signalReady at hr
        cases hds : s.disableSignals <;> simp [hds] at hr ⊢
      simp [SupState.wsize, hd]
  · rw [if_neg hr] at h
    cases hf : s.fut with
    | done a =>
      rw [hf] at h
      exact absurd h (by simp)
    | yield k =>
      rw [hf] at h
      cases h
      simp [SupState.wsize, hf, Comp.depth]

/-- Run the supervisor loop to its `break`. -/
def run {α : Type} (s : SupState α) : Finished α :=
  match h : step s with
  | .fin f => f
  | .cont t => run t
termination_by s.wsize
decreasing_by exact step_cont_wsize s t h

/-! ### Guest linear memory (lunatic-common-api `get_memory` plus slice ops)

Memory is a byte list; `sliceGet` is `memory.data().get(a..b)` (`none` on an
out-of-bounds range, which `or_trap` turns into a trap), `writeBytes` is an
in-bounds `copy_from_slice` / `Memory::write`. -/

/-- Range read `slice.get(a..b)`: `none` when the range leaves the slice. -/
def sliceGet (mem : List Nat) (a b : Nat) : Option (List Nat) :=
  if a ≤ b ∧ b ≤ mem.length then some ((mem.drop a).take (b - a)) else none

/-- Overwrite `mem[ptr..ptr + bs.length]` with `bs` (callers check bounds). -/
def writeBytes (mem : List Nat) (ptr : Nat) (bs : List Nat) : List Nat :=
  mem.take ptr ++ bs ++ mem.drop (ptr + bs.length)

/-- Rust `u64::to_le_bytes`. -/
def u64ToLe (v : Nat) : List Nat :=
  (List.range 8).map (fun i => v / 256 ^ i % 256)

/-! ### `get_nodes` (lunatic-distributed-api/src/lib.rs lines 43-64) -/

/-- The `get_nodes` host call: `node_ids` is what `control.node_ids()`
returned (the `distributed()`-error case is already collapsed to `[]` by
`unwrap_or_else`), `mem` the guest memory.  Returns the updated memory and
the count written, or a trap. -/
def get_nodes (mem : List Nat) (node_ids : List Nat) (nodes_ptr nodes_len : Nat) :
    Except String (List Nat × Nat) :=
  let copy_nodes_len := min node_ids.length nodes_len
  match sliceGet mem nodes_ptr (nodes_ptr + 8 * copy_nodes_len) with
  | none => .error "lunatic::distributed::get_nodes::memory"
  | some _ =>
    .ok (writeBytes mem nodes_ptr ((node_ids.take copy_nodes_len).map u64ToLe).flatten,
      copy_nodes_len)

/-! ### `spawn` (lunatic-distributed-api/src/lib.rs lines 96-186) -/

/-- The `Spawn` request message, as built at its construction site in
`spawn` (lib.rs lines 166-172); the function name is kept as its validated
UTF-8 bytes. -/
structure SpawnMsg where
  environment_id : Nat
  function : List Nat
  module_id : Nat
  params : List Val
  config : List Nat
  deriving DecidableEq, Repr

/-- External collaborators of the `spawn` host call, outside this layer:
UTF-8 validation (`std::str::from_utf8`), config serialization
(`bincode::serialize`, which can fail), and the remote RPC
(`distributed_client.spawn`, a `Result<u64>`). -/
structure SpawnExt (Config : Type) where
  utf8Ok : List Nat → Bool
  serialize : Config → Option (List Nat)
  remote : Nat → SpawnMsg → Except Unit Nat

/-- The caller-side state `spawn` reads: the spawn capability, the guest
memory, the own config (`state.config()`), the registered config resources
(`config_resources().get`), and the environment id. -/
structure CallerState (Config : Type) where
  can_spawn : Bool
  memory : List Nat
  config : Config
  config_resources : Nat → Option Config
  environment_id : Nat

/-- Config resolution in `spawn`: `-1` reuses the own config, any other id
is looked up as a `u64` (the `config_id as u64` bit reinterpretation). -/
def resolveConfig {Config : Type} (st : CallerState Config) (config_id : Int) :
    Option Config :=
  if config_id = -1 then some st.config
  else st.config_resources (config_id % 2 ^ 64).toNat

/-- The `spawn` host call.  Returns the updated guest memory and the status
code, or a trap/error.  Error strings abbreviate the source messages
(kept apostrophe-free). -/
def spawn {Config : Type} (ext : SpawnExt Config) (st : CallerState Config)
    (node_id : Nat) (config_id : Int) (module_id : Nat)
    (func_str_ptr func_str_len params_ptr params_len id_ptr : Nat) :
    Except String (List Nat × Nat) :=
  if st.can_spawn = false then
    .error "Process does not have permissions to spawn sub-processes"
  else
    match sliceGet st.memory func_str_ptr (func_str_ptr + func_str_len) with
    | none => .error "lunatic::distributed::spawn::func_str"
    | some func_str =>
      if ext.utf8Ok func_str = false then
        .error "lunatic::distributed::spawn::func_str_utf8"
      else
        match sliceGet st.memory params_ptr (params_ptr + params_len) with
        | none => .error "lunatic::distributed::spawn::params"
        | some params_bytes =>
          match decode_params params_bytes with
          | .error e => .error e
          | .ok params =>
            match resolveConfig st config_id with
            | none => .error "lunatic::process::spawn: Config ID does not exist"
            | some config =>
              match ext.serialize config with
              | none => .error "Error serializing config"
              | some config_bytes =>
                let msg : SpawnMsg :=
                  ⟨st.environment_id, func_str, module_id, params, config_bytes⟩
                let pr : Nat × Nat :=
                  match ext.remote node_id msg with
                  | .ok id => (id, 0)
                  | .error _ => (0, 1)
                if id_ptr + 8 ≤ st.memory.length then
                  .ok (writeBytes st.memory id_ptr (u64ToLe pr.1), pr.2)
                else .error "lunatic::distributed::spawn::write_id"

/-! ### Messages, scratch slot and `send_receive_skip_search`
(lunatic-distributed-api/src/lib.rs lines 217-266) -/

/-- Type `lunatic_process::message::Message` is outside src/.  Modelled from the
spec: a Data message carries an optional correlation tag and an opaque byte
payload; other signal kinds exist but are opaque to this layer. -/
inductive Message where
  | data (tag : Option Int) (buffer : List Nat)
  | other (kind : Nat)
  deriving DecidableEq, Repr

/-- Accessor `Message::tag()`: the correlation tag of a Data message. -/
def Message.tag : Message → Option Int
  | .data t _ => t
  | .other _ => none

/-- Whether a message passes a tag filter.  Modelled from the spec: a
message matches `none` always, and `some ts` iff its tag is in `ts`. -/
def tagMatches (m : Message) (tags : Option (List Int)) : Bool :=
  match tags with
  | none => true
  | some ts =>
    match m.tag with
    | some t => ts.contains t
    | none => false

/-- Modelled from the spec: `pop_skip_search` removes the first queued
message matching the filter and leaves every other message in place, in
order; `none` when nothing queued matches. -/
def popSkipSearch (queue : List Message) (tags : Option (List Int)) :
    Option (Message × List Message) :=
  match queue with
  | [] => none
  | m :: rest =>
    if tagMatches m tags then some (m, rest)
    else (popSkipSearch rest tags).map (fun p => (p.1, m :: p.2))

/-- The caller-side state of the messaging calls: the scratch slot
(`message_scratch_area()`), the queued mailbox contents, and the
environment id. -/
structure ProcState where
  scratch : Option Message
  mailbox : List Message
  environment_id : Nat
  deriving DecidableEq, Repr

/-- External collaborators of `send_receive_skip_search`: the remote
message RPC (`distributed_client.message_process`), and the outcome of
waiting on an empty mailbox against the timer — arrival timing is
environment-dependent, so a message that arrives only during the wait is
given by the oracle `lateMessage` (`none` = the timer fires first). -/
structure MsgExt where
  message_process : Nat → Nat → Nat → Option Int → List Nat → Except Unit Unit
  lateMessage : Option Message

/-- The `send_receive_skip_search` host call.  Returns the updated caller
state and the status code, or a trap.  The `tokio::select!` between the
timer and the mailbox wait is modelled as: a matching message already
queued wins (its future is immediately ready, the fresh timer is not);
otherwise the oracle decides, and with `timeout = 0` the timer branch is
disabled so a `none` oracle outcome means the call never returns, marked
by a distinguished error no theorem relies on. -/
def send_receive_skip_search (ext : MsgExt) (st : ProcState)
    (node_id process_id : Nat) (timeout : Nat) :
    Except String (ProcState × Nat) :=
  match st.scratch with
  | none => .error "lunatic::message::send::no_message"
  | some message =>
    let st1 : ProcState := { st with scratch := none }
    let tags : Option (List Int) := message.tag.map (fun t => [t])
    match message with
    | .data tag buffer =>
      match ext.message_process node_id st1.environment_id process_id tag buffer with
      | .error _ => .error "lunatic::distributed::message_process"
      | .ok _ =>
        match popSkipSearch st1.mailbox tags with
        | some (m, rest) => .ok ({ st1 with scratch := some m, mailbox := rest }, 0)
        | none =>
          match ext.lateMessage with
          | some m => .ok ({ st1 with scratch := some m }, 0)
          | none =>
            if timeout = 0 then .error "diverges: timer disabled, no message arrives"
            else .ok (st1, 9027)
    | .other _ => .ok (st1, 9027)

/-! ### Node server (lunatic-distributed/src/distributed/server.rs) -/

/-- Association-list lookup by id (the shared tables are keyed maps). -/
def alookup {α : Type} : List (Nat × α) → Nat → Option α
  | [], _ => none
  | (k, v) :: rest, key => if k = key then some v else alookup rest key

/-- A server-side environment: its processes by id, each with the list of
signals delivered to it so far. -/
structure EnvSt where
  processes : List (Nat × List (Option Int × List Nat))
  deriving DecidableEq, Repr

/-- The `Environments` table. -/
structure Envs where
  table : List (Nat × EnvSt)
  deriving DecidableEq, Repr

/-- Operation `Environments::get_or_create`: return the environment with this id, or
register a fresh empty one. -/
def Envs.get_or_create (e : Envs) (eid : Nat) : EnvSt × Envs :=
  match alookup e.table eid with
  | some env => (env, e)
  | none => (⟨[]⟩, ⟨e.table ++ [(eid, ⟨[]⟩)]⟩)

/-- Operation `Environment::get_process`. -/
def EnvSt.get_process (env : EnvSt) (pid : Nat) :
    Option (List (Option Int × List Nat)) :=
  alookup env.processes pid

/-- Deliver `Signal::Message(Message::Data(DataMessage::new_from_vec(tag,
data)))` to process `pid` of environment `eid`: append it to that mailbox. -/
def enqueueSignal (envs : Envs) (eid pid : Nat) (tag : Option Int)
    (data : List Nat) : Envs :=
  ⟨envs.table.map (fun kv =>
    if kv.1 = eid then
      (kv.1, ⟨kv.2.processes.map (fun pq =>
        if pq.1 = pid then (pq.1, pq.2 ++ [(tag, data)]) else pq)⟩)
    else kv)⟩

/-- Handler `handle_process_message` (server.rs lines 124-141): resolve or create
the environment; if the target process exists, enqueue the data message,
else do nothing; always `Ok`. -/
def handle_process_message (envs : Envs) (environment_id process_id : Nat)
    (tag : Option Int) (data : List Nat) : Except String Envs :=
  let p := envs.get_or_create environment_id
  match p.1.get_process process_id with
  | some _ => .ok (enqueueSignal p.2 environment_id process_id tag data)
  | none => .ok p.2

/-- Server context (`ServerCtx` plus the external collaborators of
`handle_spawn`): the environments table, the module cache
(`Modules::get`), the control plane (`control.get_module`), the compiler
(`Modules::compile`, whose cache insertion happens inside it), config
deserialization (`bincode::deserialize`), state construction
(`T::new_dist_state`) and instantiation (`Environment::spawn_wasm`,
returning the new process id). -/
structure ServerCtx (Config Module PState : Type) where
  envs : Envs
  modules : Nat → Option Module
  control_get_module : Nat → Option (List Nat)
  compile : List Nat → Except Unit Module
  deserialize_config : List Nat → Option Config
  new_dist_state : EnvSt → Module → Config → Except Unit PState
  spawn_wasm : EnvSt → Module → PState → List Nat → List Val → Except Unit Nat

/-- Module resolution in `handle_spawn` (server.rs lines 101-111): local
cache first, else control-plane fetch and compile. -/
def resolve_module {C M P : Type} (ctx : ServerCtx C M P) (module_id : Nat) :
    Except String M :=
  match ctx.modules module_id with
  | some m => .ok m
  | none =>
    match ctx.control_get_module module_id with
    | some bytes =>
      match ctx.compile bytes with
      | .ok m => .ok m
      | .error _ => .error "module compile failed"
    | none => .error "Cannot get the module from control"

/-- Handler `handle_spawn` (server.rs lines 86-122).  Returns the new process id
and the environments table after `get_or_create` (the spawned process is
registered inside `spawn_wasm`, outside this layer). -/
def handle_spawn {C M P : Type} (ctx : ServerCtx C M P) (sp : SpawnMsg) :
    Except String (Nat × Envs) :=
  match ctx.deserialize_config sp.config with
  | none => .error "config deserialize failed"
  | some config =>
    match resolve_module ctx sp.module_id with
    | .error e => .error e
    | .ok module =>
      let p := ctx.envs.get_or_create sp.environment_id
      match ctx.new_dist_state p.1 module config with
      | .error _ => .error "new_dist_state failed"
      | .ok state =>
        match ctx.spawn_wasm p.1 module state sp.function sp.params with
        | .error _ => .error "spawn_wasm failed"
        | .ok id => .ok (id, p.2)

/-- A decoded request (`Request`). -/
inductive Request where
  | spawnReq (sp : SpawnMsg)
  | message (environment_id process_id : Nat) (tag : Option Int) (data : List Nat)

/-- A response written back on the connection (`Response`). -/
inductive Response where
  | spawned (id : Nat)
  deriving DecidableEq, Repr

/-- Dispatcher `handle_message` (server.rs lines 62-84): dispatch one request; the
result is the updated environments table and the correlated responses sent
back on the connection (none for a `Message` request). -/
def handle_message {C M P : Type} (ctx : ServerCtx C M P) (msg_id : Nat)
    (req : Request) : Except String (Envs × List (Nat × Response)) :=
  match req with
  | .spawnReq sp =>
    match handle_spawn ctx sp with
    | .error e => .error e
    | .ok (id, envs2) => .ok (envs2, [(msg_id, .spawned id)])
  | .message eid pid tag data =>
    match handle_process_message ctx.envs eid pid tag data with
    | .error e => .error e
    | .ok envs2 => .ok (envs2, [])

/-! ## Theorems -/

/-! ### Supervisor helper lemmas -/

theorem run_eq_fin {α : Type} {s : SupState α} {f : Finished α}
    (h : step s = .fin f) : run s = f := by
  unfold run
  split
  · rename_i f2 h2
    rw [h] at h2
    cases h2
    rfl
  · rename_i t h2
    rw [h] at h2
    cases h2

theorem run_eq_cont {α : Type} {s t : SupState α}
    (h : step s = .cont t) : run s = run t := by
  conv_lhs => unfold run
  split
  · rename_i f2 h2
    rw [h] at h2
    cases h2
  · rename_i t2 h2
    rw [h] at h2
    cases h2
    rfl

theorem run_disabled {α : Type} (c : Comp α) :
    ∀ t : SupState α, t.disableSignals = true → t.fut = c →
      run t = .wasm c.result := by
  induction c with
  | done a =>
    intro t hd hf
    have hstep : step t = .fin (.wasm a) := by
      simp [step, signalReady, hd, hf]
    rw [run_eq_fin hstep, Comp.result]
  | yield k ih =>
    intro t hd hf
    have hstep : step t = .cont { t with fut := k } := by
      simp [step, signalReady, hd, hf]
    rw [run_eq_cont hstep]
    simpa [Comp.result] using ih { t with fut := k } hd rfl

/-- Claim C2: at any supervisor iteration where a Kill signal is already
queued on the (still enabled) signal channel, the biased select breaks with
`Finished::Signal(Signal::Kill)` and the loop result is `KilledBySignal`;
the computation is never polled again — the statement holds for every
`s.fut`, including one that would complete on that very poll. -/
theorem kill_preempts_completion {α : Type} (s : SupState α)
    (hq : s.queued = some Signal.kill) (hd : s.disableSignals = false) :
    step s = .fin (.signal .kill) ∧ run s = .signal .kill := by
  have hstep : step s = .fin (.signal .kill) := by
    simp [step, signalReady, hd, hq]
  exact ⟨hstep, run_eq_fin hstep⟩

theorem kill_preempts_completion_witness :
    step (⟨some Signal.kill, false, false, Comp.done 0⟩ : SupState Nat) =
        .fin (.signal .kill) ∧
      run (⟨some Signal.kill, false, false, Comp.done 0⟩ : SupState Nat) =
        .signal .kill :=
  kill_preempts_completion ⟨some Signal.kill, false, false, Comp.done 0⟩ rfl rfl

/-- Claim C3: once `recv` resolves to `None` (channel closed, nothing
queued), the iteration only sets `disable_signals`; from any state with
signals disabled, every further iteration keeps them disabled and only
polls the computation, so the loop runs it to completion and breaks with
its output. -/
theorem closed_channel_disables_signals {α : Type} (s : SupState α)
    (hd : s.disableSignals = false) (hq : s.queued = none)
    (hc : s.closed = true) :
    step s = .cont { s with disableSignals := true } ∧
    (∀ t : SupState α, t.disableSignals = true →
      (∀ u, step t = .cont u → u.disableSignals = true) ∧
      run t = .wasm t.fut.result) ∧
    run s = .wasm s.fut.result := by
  have hstep : step s = .cont { s with disableSignals := true } := by
    simp [step, signalReady, hd, hq, hc]
  refine ⟨hstep, ?_, ?_⟩
  · intro t ht
    refine ⟨?_, run_disabled t.fut t ht rfl⟩
    intro u hu
    have hr : signalReady t = false := by simp [signalReady, ht]
    unfold step at hu
    rw [hr] at hu
    simp only [Bool.false_eq_true, if_false] at hu
    cases hf : t.fut with
    | done a =>
      rw [hf] at hu
      exact absurd hu (by simp)
    | yield k =>
      rw [hf] at hu
      cases hu
      exact ht
  · rw [run_eq_cont hstep]
    exact run_disabled s.fut { s with disableSignals := true } rfl rfl

theorem closed_channel_disables_signals_witness :
    step (⟨none, true, false, Comp.yield (Comp.done 3)⟩ : SupState Nat) =
        .cont ⟨none, true, true, Comp.yield (Comp.done 3)⟩ ∧
      run (⟨none, true, false, Comp.yield (Comp.done 3)⟩ : SupState Nat) =
        .wasm 3 :=
  have h := closed_channel_disables_signals
    (⟨none, true, false, Comp.yield (Comp.done 3)⟩ : SupState Nat) rfl rfl rfl
  ⟨h.1, h.2.2⟩

/-! ### Codec lemmas -/

/-- The value a 17-byte record with a supported tag decodes to. -/
def decodedValOf (c : List Nat) : Val :=
  let value := u128FromLe (c.drop 1)
  if c.headD 0 = 0x7F then .I32 (toI32 value)
  else if c.headD 0 = 0x7E then .I64 (toI64 value)
  else .V128 value

theorem decodeChunk_supported (c : List Nat)
    (h : supportedTag (c.headD 0) = true) :
    decodeChunk c = .ok (decodedValOf c) := by
  unfold supportedTag at h
  simp only [decodeChunk, decodedValOf]
  rcases Bool.or_eq_true_iff.mp h with h2 | h3
  · rcases Bool.or_eq_true_iff.mp h2 with h4 | h5
    · rw [eq_of_beq h4]
      norm_num
    · rw [eq_of_beq h5]
      norm_num
  · rw [eq_of_beq h3]
    norm_num

theorem decodeChunk_unsupported (c : List Nat)
    (h : supportedTag (c.headD 0) = false) :
    decodeChunk c = .error "Unsupported type ID" := by
  unfold supportedTag at h
  simp only [Bool.or_eq_false_iff, beq_eq_false_iff_ne, ne_eq] at h
  simp only [decodeChunk]
  rw [if_neg h.1.1, if_neg h.1.2, if_neg h.2]

theorem collectDecoded_error_of_unsupported (L : List (List Nat))
    (h : ∃ c ∈ L, supportedTag (c.headD 0) = false) :
    ∃ e, collectDecoded L = .error e := by
  induction L with
  | nil =>
    rcases h with ⟨c, hc, _⟩
    cases hc
  | cons c rest ih =>
    rcases h with ⟨d, hd, hsup⟩
    rcases List.mem_cons.mp hd with rfl | hmem
    · exact ⟨"Unsupported type ID",
        by simp [collectDecoded, decodeChunk_unsupported d hsup]⟩
    · cases hdc : decodeChunk c with
      | error e2 => exact ⟨e2, by simp [collectDecoded, hdc]⟩
      | ok v =>
        obtain ⟨e, he⟩ := ih ⟨d, hmem, hsup⟩
        exact ⟨e, by simp [collectDecoded, hdc, he]⟩

theorem collectDecoded_ok_of_supported (L : List (List Nat))
    (h : ∀ c ∈ L, supportedTag (c.headD 0) = true) :
    collectDecoded L = .ok (L.map decodedValOf) := by
  induction L with
  | nil => rfl
  | cons c rest ih =>
    have hc := decodeChunk_supported c (h c (List.mem_cons_self c rest))
    have hrest := ih (fun d hd => h d (List.mem_cons_of_mem c hd))
    simp [collectDecoded, hc, hrest]

/-- Claim C6: a complete 17-byte record with an unsupported tag byte makes the
whole decode fail; a record with a supported tag decodes to the variant the
tag selects, with the payload read little-endian from the 16 bytes after the
tag; and a buffer all of whose complete records carry supported tags decodes
to exactly those values, in order. -/
theorem decode_params_tag_spec (bytes : List Nat) :
    ((∃ c ∈ chunksExact17 bytes, supportedTag (c.headD 0) = false) →
      ∃ e, decode_params bytes = .error e) ∧
    (∀ c ∈ chunksExact17 bytes,
      (c.headD 0 = 0x7F →
        decodeChunk c = .ok (.I32 (toI32 (u128FromLe (c.drop 1))))) ∧
      (c.headD 0 = 0x7E →
        decodeChunk c = .ok (.I64 (toI64 (u128FromLe (c.drop 1))))) ∧
      (c.headD 0 = 0x7B →
        decodeChunk c = .ok (.V128 (u128FromLe (c.drop 1))))) ∧
    ((∀ c ∈ chunksExact17 bytes, supportedTag (c.headD 0) = true) →
      decode_params bytes = .ok ((chunksExact17 bytes).map decodedValOf)) := by
  refine ⟨?_, ?_, ?_⟩
  · intro h
    exact collectDecoded_error_of_unsupported (chunksExact17 bytes) h
  · intro c _
    refine ⟨?_, ?_, ?_⟩ <;> intro ht <;>
      · simp only [decodeChunk]
        rw [ht]
        norm_num
  · intro h
    exact collectDecoded_ok_of_supported (chunksExact17 bytes) h

theorem decode_params_tag_spec_witness :
    (∃ e, decode_params (0 :: List.replicate 16 0) = Except.error e) ∧
      decode_params (0x7F :: List.replicate 16 0) = .ok [Val.I32 0] := by
  constructor
  · exact (decode_params_tag_spec (0 :: List.replicate 16 0)).1 (by decide)
  · have h := (decode_params_tag_spec (0x7F :: List.replicate 16 0)).2.2 (by decide)
    rw [h]
    rfl

/-! ### Memory-write lemmas -/

theorem writeBytes_length (mem bs : List Nat) (p : Nat)
    (h : p + bs.length ≤ mem.length) :
    (writeBytes mem p bs).length = mem.length := by
  simp only [writeBytes, List.length_append, List.length_take, List.length_drop]
  omega

theorem writeBytes_take (mem bs : List Nat) (p : Nat) (h : p ≤ mem.length) :
    (writeBytes mem p bs).take p = mem.take p := by
  have hl : (mem.take p).length = p := by
    simp only [List.length_take]
    omega
  have h2 := List.take_left (mem.take p) (bs ++ mem.drop (p + bs.length))
  rw [hl] at h2
  unfold writeBytes
  rw [List.append_assoc]
  exact h2

theorem writeBytes_drop (mem bs : List Nat) (p : Nat) (h : p ≤ mem.length) :
    (writeBytes mem p bs).drop (p + bs.length) = mem.drop (p + bs.length) := by
  have hl : (mem.take p ++ bs).length = p + bs.length := by
    simp only [List.length_append, List.length_take]
    omega
  have h2 := List.drop_left (mem.take p ++ bs) (mem.drop (p + bs.length))
  rw [hl] at h2
  unfold writeBytes
  exact h2

theorem writeBytes_slice (mem bs : List Nat) (p : Nat)
    (h : p + bs.length ≤ mem.length) :
    sliceGet (writeBytes mem p bs) p (p + bs.length) = some bs := by
  have hd : (writeBytes mem p bs).drop p = bs ++ mem.drop (p + bs.length) := by
    have hl : (mem.take p).length = p := by
      simp only [List.length_take]
      omega
    have h2 := List.drop_left (mem.take p) (bs ++ mem.drop (p + bs.length))
    rw [hl] at h2
    unfold writeBytes
    rw [List.append_assoc]
    exact h2
  unfold sliceGet
  rw [if_pos ⟨by omega, by rw [writeBytes_length mem bs p h]; exact h⟩]
  rw [hd, Nat.add_sub_cancel_left, List.take_left]

theorem map_u64ToLe_flatten_length (L : List Nat) :
    ((L.map u64ToLe).flatten).length = 8 * L.length := by
  induction L with
  | nil => simp
  | cons a l ih =>
    have ha : (u64ToLe a).length = 8 := by simp [u64ToLe]
    simp only [List.map_cons, List.flatten_cons, List.length_append, ih, ha,
      List.length_cons]
    omega

/-- Claim C7: with a destination buffer the guest memory can hold,
`get_nodes` with capacity `c` over `node_ids` of length `n` succeeds,
returns `min n c`, writes exactly the `min n c` 8-byte little-endian node
ids contiguously at `p`, and leaves every byte before `p` and from
`p + 8 * min n c` on unchanged. -/
theorem get_nodes_spec (mem node_ids : List Nat) (p c : Nat)
    (hfit : p + 8 * min node_ids.length c ≤ mem.length) :
    ∃ mem2,
      get_nodes mem node_ids p c = .ok (mem2, min node_ids.length c) ∧
      mem2.length = mem.length ∧
      mem2.take p = mem.take p ∧
      mem2.drop (p + 8 * min node_ids.length c) =
        mem.drop (p + 8 * min node_ids.length c) ∧
      sliceGet mem2 p (p + 8 * min node_ids.length c) =
        some ((node_ids.take (min node_ids.length c)).map u64ToLe).flatten := by
  have hbsl : (((node_ids.take (min node_ids.length c)).map u64ToLe).flatten).length =
      8 * min node_ids.length c := by
    rw [map_u64ToLe_flatten_length, List.length_take]
    omega
  have hsg : sliceGet mem p (p + 8 * min node_ids.length c) =
      some ((mem.drop p).take (p + 8 * min node_ids.length c - p)) := by
    unfold sliceGet
    rw [if_pos ⟨by omega, by omega⟩]
  have hok : get_nodes mem node_ids p c =
      .ok (writeBytes mem p ((node_ids.take (min node_ids.length c)).map u64ToLe).flatten,
        min node_ids.length c) := by
    simp only [get_nodes]
    rw [hsg]
  refine ⟨writeBytes mem p ((node_ids.take (min node_ids.length c)).map u64ToLe).flatten,
    hok, ?_, ?_, ?_, ?_⟩
  · exact writeBytes_length mem _ p (by omega)
  · exact writeBytes_take mem _ p (by omega)
  · have h2 := writeBytes_drop mem
      ((node_ids.take (min node_ids.length c)).map u64ToLe).flatten p (by omega)
    rw [hbsl] at h2
    exact h2
  · have h2 := writeBytes_slice mem
      ((node_ids.take (min node_ids.length c)).map u64ToLe).flatten p (by omega)
    rw [hbsl] at h2
    exact h2

theorem get_nodes_spec_witness :
    ∃ mem2,
      get_nodes (List.replicate 20 7) [1, 2] 1 5 = .ok (mem2, min 2 5) ∧
      mem2.length = (List.replicate 20 7 : List Nat).length ∧
      mem2.take 1 = (List.replicate 20 7 : List Nat).take 1 ∧
      mem2.drop (1 + 8 * min 2 5) = (List.replicate 20 7 : List Nat).drop (1 + 8 * min 2 5) ∧
      sliceGet mem2 1 (1 + 8 * min 2 5) =
        some ((([1, 2] : List Nat).take (min 2 5)).map u64ToLe).flatten :=
  get_nodes_spec (List.replicate 20 7) [1, 2] 1 5 (by decide)

/-! ### `spawn` theorems -/

/-- Claim C5: a caller without the spawn capability gets the permission error
before anything else happens: the result is that error for every guest
memory and every external world, so no guest memory is read, no config is
serialized and no request is sent. -/
theorem spawn_no_permission {Config : Type} (ext : SpawnExt Config)
    (st : CallerState Config) (node_id : Nat) (config_id : Int)
    (module_id func_str_ptr func_str_len params_ptr params_len id_ptr : Nat)
    (h : st.can_spawn = false) :
    spawn ext st node_id config_id module_id func_str_ptr func_str_len
        params_ptr params_len id_ptr =
      .error "Process does not have permissions to spawn sub-processes" ∧
    ∀ (ext2 : SpawnExt Config) (mem2 : List Nat),
      spawn ext st node_id config_id module_id func_str_ptr func_str_len
          params_ptr params_len id_ptr =
        spawn ext2 { st with memory := mem2 } node_id config_id module_id
          func_str_ptr func_str_len params_ptr params_len id_ptr := by
  constructor
  · simp [spawn, h]
  · intro ext2 mem2
    simp [spawn, h]

theorem spawn_no_permission_witness :
    spawn (⟨fun _ => true, fun _ => some [], fun _ _ => .ok 5⟩ : SpawnExt Unit)
        ⟨false, List.replicate 8 0, (), fun _ => none, 0⟩
        1 (-1) 2 0 0 0 0 0 =
      .error "Process does not have permissions to spawn sub-processes" :=
  (spawn_no_permission (⟨fun _ => true, fun _ => some [], fun _ _ => .ok 5⟩ : SpawnExt Unit)
    ⟨false, List.replicate 8 0, (), fun _ => none, 0⟩ 1 (-1) 2 0 0 0 0 0 rfl).1

/-- Claim C4: when the capability, memory, parameter-decoding and
config-resolution steps all pass: a successful remote spawn writes the new
process id little-endian at `id_ptr` and returns status 0; a failed remote
spawn writes the sentinel id 0 little-endian at `id_ptr` and returns
status 1. -/
theorem spawn_status_spec {Config : Type} (ext : SpawnExt Config)
    (st : CallerState Config) (node_id : Nat) (config_id : Int)
    (module_id func_str_ptr func_str_len params_ptr params_len id_ptr : Nat)
    (func_str params_bytes config_bytes : List Nat) (params : List Val)
    (config : Config)
    (hcan : st.can_spawn = true)
    (hfs : sliceGet st.memory func_str_ptr (func_str_ptr + func_str_len) = some func_str)
    (hutf : ext.utf8Ok func_str = true)
    (hps : sliceGet st.memory params_ptr (params_ptr + params_len) = some params_bytes)
    (hdec : decode_params params_bytes = .ok params)
    (hcfg : resolveConfig st config_id = some config)
    (hser : ext.serialize config = some config_bytes)
    (hid : id_ptr + 8 ≤ st.memory.length) :
    (∀ pid, ext.remote node_id
        ⟨st.environment_id, func_str, module_id, params, config_bytes⟩ = .ok pid →
      spawn ext st node_id config_id module_id func_str_ptr func_str_len
          params_ptr params_len id_ptr =
        .ok (writeBytes st.memory id_ptr (u64ToLe pid), 0)) ∧
    (∀ er, ext.remote node_id
        ⟨st.environment_id, func_str, module_id, params, config_bytes⟩ = .error er →
      spawn ext st node_id config_id module_id func_str_ptr func_str_len
          params_ptr params_len id_ptr =
        .ok (writeBytes st.memory id_ptr (u64ToLe 0), 1)) := by
  constructor
  · intro pid hrem
    simp [spawn, hcan, hfs, hutf, hps, hdec, hcfg, hser, hid, hrem]
  · intro er hrem
    simp [spawn, hcan, hfs, hutf, hps, hdec, hcfg, hser, hid, hrem]

theorem spawn_status_spec_witness :
    spawn (⟨fun _ => true, fun _ => some [], fun _ _ => .ok 5⟩ : SpawnExt Unit)
        ⟨true, List.replicate 8 9, (), fun _ => none, 0⟩
        1 (-1) 2 0 0 0 0 0 =
      .ok (writeBytes (List.replicate 8 9) 0 (u64ToLe 5), 0) :=
  ((spawn_status_spec (⟨fun _ => true, fun _ => some [], fun _ _ => .ok 5⟩ : SpawnExt Unit)
      ⟨true, List.replicate 8 9, (), fun _ => none, 0⟩ 1 (-1) 2 0 0 0 0 0
      [] [] [] [] ()
      rfl (by decide) rfl (by decide) rfl (by simp [resolveConfig]) rfl (by decide)).1) 5 rfl

/-! ### `send_receive_skip_search` theorems -/

/-- Claim C1 counterexample: with an empty scratch slot the call does NOT
return the no-message status: it fails with the no-message trap, so the
claim as stated is false at this input. -/
theorem srss_empty_scratch_counterexample :
    send_receive_skip_search ⟨fun _ _ _ _ _ => .ok (), none⟩ ⟨none, [], 0⟩ 1 2 3 =
        .error "lunatic::message::send::no_message" ∧
      (send_receive_skip_search ⟨fun _ _ _ _ _ => .ok (), none⟩
          ⟨none, [], 0⟩ 1 2 3).isOk = false := by
  exact ⟨rfl, rfl⟩

/-- Claim C1 as amended: when the Scratch Slot holds no staged outbound
message, `send_receive_skip_search` fails with the no-message trap — for
every external world, so nothing is sent — instead of returning the
no-message status. -/
theorem srss_empty_scratch_traps (ext : MsgExt) (st : ProcState)
    (node_id process_id timeout : Nat) (h : st.scratch = none) :
    send_receive_skip_search ext st node_id process_id timeout =
      .error "lunatic::message::send::no_message" := by
  simp [send_receive_skip_search, h]

theorem srss_empty_scratch_traps_witness :
    send_receive_skip_search ⟨fun _ _ _ _ _ => .error (), some (.other 1)⟩
        ⟨none, [.other 2], 4⟩ 5 6 7 =
      .error "lunatic::message::send::no_message" :=
  srss_empty_scratch_traps ⟨fun _ _ _ _ _ => .error (), some (.other 1)⟩
    ⟨none, [.other 2], 4⟩ 5 6 7 rfl

/-- Claim C10: a staged message that is not a Data message is consumed from
the slot and the call returns the sentinel 9027 — for every external world,
so nothing is sent and the mailbox is never waited on. The same 9027 is
what the timeout path returns when no matching message arrives in time,
and it is distinct from the success status 0. -/
theorem srss_non_data_sentinel (ext : MsgExt) (st : ProcState)
    (node_id process_id timeout kind : Nat)
    (h : st.scratch = some (.other kind)) :
    send_receive_skip_search ext st node_id process_id timeout =
        .ok ({ st with scratch := none }, 9027) ∧
    (∀ (ext2 : MsgExt) (st2 : ProcState) (n2 p2 t2 : Nat) (tag : Option Int)
        (buf : List Nat),
      st2.scratch = some (.data tag buf) →
      ext2.message_process n2 st2.environment_id p2 tag buf = .ok () →
      popSkipSearch st2.mailbox (tag.map fun t => [t]) = none →
      ext2.lateMessage = none → t2 ≠ 0 →
      send_receive_skip_search ext2 st2 n2 p2 t2 =
        .ok ({ st2 with scratch := none }, 9027)) ∧
    (0 : Nat) ≠ 9027 := by
  refine ⟨?_, ?_, by decide⟩
  · simp [send_receive_skip_search, h]
  · intro ext2 st2 n2 p2 t2 tag buf h2 hmp hpop hlate ht2
    simp [send_receive_skip_search, h2, Message.tag, hmp, hpop, hlate, ht2]

theorem srss_non_data_sentinel_witness :
    send_receive_skip_search ⟨fun _ _ _ _ _ => .ok (), none⟩
        ⟨some (.other 4), [.other 2], 7⟩ 1 2 3 =
      .ok (⟨none, [.other 2], 7⟩, 9027) :=
  (srss_non_data_sentinel ⟨fun _ _ _ _ _ => .ok (), none⟩
    ⟨some (.other 4), [.other 2], 7⟩ 1 2 3 4 rfl).1

/-! ### Node-server theorems -/

/-- Claim C8: module resolution in `handle_spawn` consults the local cache
first: on a hit the control plane and compiler are irrelevant to the
result; on a miss the fetched bytes are compiled and that module is used;
and when the control plane cannot supply the bytes the whole spawn fails
with the control error and no process is instantiated (the result is the
same error for every `spawn_wasm`). -/
theorem handle_spawn_module_resolution {C M P : Type} (ctx : ServerCtx C M P)
    (sp : SpawnMsg) :
    (∀ m, ctx.modules sp.module_id = some m →
      resolve_module ctx sp.module_id = .ok m ∧
      ∀ (ctrl : Nat → Option (List Nat)) (comp : List Nat → Except Unit M),
        handle_spawn { ctx with control_get_module := ctrl, compile := comp } sp =
          handle_spawn ctx sp) ∧
    (∀ bytes m2, ctx.modules sp.module_id = none →
      ctx.control_get_module sp.module_id = some bytes →
      ctx.compile bytes = .ok m2 →
      resolve_module ctx sp.module_id = .ok m2) ∧
    (∀ cfg, ctx.deserialize_config sp.config = some cfg →
      ctx.modules sp.module_id = none →
      ctx.control_get_module sp.module_id = none →
      handle_spawn ctx sp = .error "Cannot get the module from control" ∧
      ∀ sw, handle_spawn { ctx with spawn_wasm := sw } sp =
        .error "Cannot get the module from control") := by
  refine ⟨?_, ?_, ?_⟩
  · intro m hm
    have hres : resolve_module ctx sp.module_id = .ok m := by
      simp [resolve_module, hm]
    refine ⟨hres, ?_⟩
    intro ctrl comp
    have hres2 : resolve_module
        { ctx with control_get_module := ctrl, compile := comp } sp.module_id = .ok m := by
      simp [resolve_module, hm]
    simp only [handle_spawn, hres, hres2]
  · intro bytes m2 hm hc hcomp
    simp [resolve_module, hm, hc, hcomp]
  · intro cfg hdc hm hc
    have hres : resolve_module ctx sp.module_id =
        .error "Cannot get the module from control" := by
      simp [resolve_module, hm, hc]
    constructor
    · simp [handle_spawn, hdc, hres]
    · intro sw
      have hres2 : resolve_module { ctx with spawn_wasm := sw } sp.module_id =
          .error "Cannot get the module from control" := by
        simp [resolve_module, hm, hc]
      simp [handle_spawn, hdc, hres2]

theorem handle_spawn_module_resolution_witness :
    handle_spawn
        (⟨⟨[]⟩, fun _ => none, fun _ => none, fun _ => .error (), fun _ => some 0,
          fun _ _ _ => .ok 0, fun _ _ _ _ _ => .ok 0⟩ : ServerCtx Nat Nat Nat)
        ⟨0, [], 5, [], []⟩ =
      .error "Cannot get the module from control" :=
  ((handle_spawn_module_resolution
      (⟨⟨[]⟩, fun _ => none, fun _ => none, fun _ => .error (), fun _ => some 0,
        fun _ _ _ => .ok 0, fun _ _ _ _ _ => .ok 0⟩ : ServerCtx Nat Nat Nat)
      ⟨0, [], 5, [], []⟩).2.2 0 rfl rfl rfl).1

theorem alookup_append_single {α : Type} (l : List (Nat × α)) (k : Nat) (v : α)
    (e : Nat) :
    alookup (l ++ [(k, v)]) e =
      match alookup l e with
      | some w => some w
      | none => if k = e then some v else none := by
  induction l with
  | nil => simp [alookup]
  | cons kv rest ih =>
    by_cases hk : kv.1 = e
    · simp [alookup, hk]
    · simp [alookup, hk, ih]

/-- Claim C9: a Message request whose target process id is absent from the
resolved environment completes without error; no mailbox anywhere changes
(every pre-existing environment is returned unchanged, and at most a fresh
empty environment is registered), and `handle_message` sends no response
back for it. -/
theorem message_missing_process_no_effect {C M P : Type} (ctx : ServerCtx C M P)
    (msg_id eid pid : Nat) (tag : Option Int) (data : List Nat)
    (h : ((ctx.envs.get_or_create eid).1).get_process pid = none) :
    handle_process_message ctx.envs eid pid tag data =
        .ok (ctx.envs.get_or_create eid).2 ∧
    (∀ e, alookup ((ctx.envs.get_or_create eid).2).table e = alookup ctx.envs.table e ∨
      (alookup ctx.envs.table e = none ∧
        alookup ((ctx.envs.get_or_create eid).2).table e = some ⟨[]⟩)) ∧
    handle_message ctx msg_id (.message eid pid tag data) =
      .ok ((ctx.envs.get_or_create eid).2, []) := by
  have h1 : handle_process_message ctx.envs eid pid tag data =
      .ok (ctx.envs.get_or_create eid).2 := by
    simp only [handle_process_message, h]
  refine ⟨h1, ?_, ?_⟩
  · intro e
    unfold Envs.get_or_create
    cases hg : alookup ctx.envs.table eid with
    | some env => exact Or.inl rfl
    | none =>
      simp only []
      rw [alookup_append_single]
      cases he : alookup ctx.envs.table e with
      | some w => exact Or.inl rfl
      | none =>
        by_cases hke : eid = e
        · exact Or.inr ⟨rfl, by rw [if_pos hke]⟩
        · exact Or.inl (by rw [if_neg hke])
  · simp only [handle_message, h1]

theorem message_missing_process_no_effect_witness :
    handle_process_message (⟨[(1, ⟨[(10, [])]⟩)]⟩ : Envs) 1 99 none [3] =
        .ok ((⟨[(1, ⟨[(10, [])]⟩)]⟩ : Envs).get_or_create 1).2 :=
  (message_missing_process_no_effect
    (⟨⟨[(1, ⟨[(10, [])]⟩)]⟩, fun _ => none, fun _ => none, fun _ => .error (),
      fun _ => some 0, fun _ _ _ => .ok 0, fun _ _ _ _ _ => .ok 0⟩ : ServerCtx Nat Nat Nat)
    0 1 99 none [3] (by decide)).1

end Lunatic
